import Mathlib

/-!
Verification of the PVwatcher monitor IOC status-aggregation engine
(`monitor_ioc.py`) against its natural-language specification.

The embedding follows the source:
* `Target`/`State` model the registry of monitored targets together with the
  two process-wide integer points `MONITOR:MASTER_ENABLE` and
  `MONITOR:SUMMARY_STATUS` (defaults 1/1, per-target enable default 1,
  bounds defaults 0.0/100.0).
* `update_summary_w` embeds `_update_summary` (with its optional
  `master_enable_override` argument), returning the new state together with
  a flag recording whether `summary_status.write` was performed.
* `master_enable_putter` embeds the putter of `MONITOR:MASTER_ENABLE`: it
  recomputes with the freshly written value as override, then the framework
  commits the value to the point.
* A second "full" model (`TargetF`, `StateF`, `update_summaryF`) keeps the
  stored value as a raw `Payload` (number, string, or numeric sequence) and
  models Python's comparison of a non-numeric value with a float bound as a
  raised `TypeError` (`Except.error`), as well as the scalar-extraction
  policy of `_monitor_loop` / `master_enable_startup` with its caught
  `IndexError` fallback, and the per-target startup sequence.
* `Sched`/`generic_putter` model the task scheduling performed by the
  putter shared by the `<id>:ENABLE` / `<id>:LOW` / `<id>:HIGH` points:
  each call runs `asyncio.ensure_future(check_after())`, adding one pending
  task that sleeps 0.01 s and then invokes `_update_summary` once.

Numeric values are modelled by `ℚ`; the claims under study only concern the
order relation on values, not floating-point rounding.
-/

/-- One entry of the target registry: identifier, the values of the
`<id>:ENABLE`, `<id>:LOW`, `<id>:HIGH` points, and the stored
`target_values[id]` entry (`none` models Python `None`). -/
structure Target where
  id : String
  enabled : Int
  low : ℚ
  high : ℚ
  lastValue : Option ℚ
deriving DecidableEq, Repr

/-- The registry snapshot `_update_summary` reads: the cached
`master_enable.value`, the published `summary_status.value`, and the targets
in configuration (registration) order. -/
structure State where
  master : Int
  summary : Int
  targets : List Target
deriving DecidableEq, Repr

/-- The per-target test of `_update_summary` (lines 184-188):
`if is_enabled and current_value is not None: if current_value < low_limit
or current_value > high_limit: all_ok = False`.  Python truthiness of the
integer enable point is `≠ 0`. -/
def target_alarm (t : Target) : Bool :=
  if t.enabled ≠ 0 then
    match t.lastValue with
    | some v => decide (v < t.low) || decide (v > t.high)
    | none => false
  else false

/-- The scan loop of `_update_summary` (lines 166-188): `all_ok` starts
true and the loop `break`s at the first alarming target. -/
def scan_targets : List Target → Bool
  | [] => true
  | t :: ts => if target_alarm t then false else scan_targets ts

/-- Embedding of `_update_summary(master_enable_override=...)` (lines 154-193).
Returns
the resulting state and whether `summary_status.write` was called.  The
override, when present, replaces the cached `master_enable.value`; if the
effective master enable is 0 the status is forced to 1; otherwise the scan
result is published.  In both branches the write is guarded by an
inequality test against the currently published value. -/
def update_summary_w (s : State) (override : Option Int) : State × Bool :=
  let master_enable := override.getD s.master
  if master_enable = 0 then
    if s.summary ≠ 1 then ({ s with summary := 1 }, true) else (s, false)
  else
    let new_status : Int := if scan_targets s.targets then 1 else 0
    if s.summary ≠ new_status then ({ s with summary := new_status }, true)
    else (s, false)

/-- The state after `_update_summary`. -/
def update_summary (s : State) (override : Option Int) : State :=
  (update_summary_w s override).1

/-- The value `_update_summary` computes for `SUMMARY_STATUS` before the
change-guard: 1 in the master-disabled branch, otherwise
`1 if all_ok else 0`. -/
def computed_status (s : State) (override : Option Int) : Int :=
  if override.getD s.master = 0 then 1
  else if scan_targets s.targets then 1 else 0

/-- Embedding of `master_enable_putter` (lines 68-71): on a write of `value` to
`MONITOR:MASTER_ENABLE`, run `_update_summary(master_enable_override=value)`
(while `self.master_enable.value` still holds the old cached value), then
the framework commits `value` to the point. -/
def master_enable_putter (s : State) (value : Int) : State :=
  { update_summary s (some value) with master := value }

/-- A target is within its configured bounds (inclusive) in the sense of
the spec: `low ≤ value ≤ high` for every enabled target with a present
value. -/
def target_in_bounds (t : Target) : Prop :=
  t.enabled ≠ 0 → ∀ v : ℚ, t.lastValue = some v → t.low ≤ v ∧ v ≤ t.high

instance (t : Target) : Decidable (target_in_bounds t) := by
  unfold target_in_bounds; infer_instance

/-- Full (non-short-circuiting) aggregation: count the alarming targets over
the whole registry and report healthy exactly when there are none. -/
def full_scan_status (ts : List Target) : Int :=
  if ts.countP (fun t => target_alarm t) = 0 then 1 else 0

-- Basic lemmas about the scan.

lemma target_alarm_false_iff (t : Target) :
    target_alarm t = false ↔ target_in_bounds t := by
  constructor
  · intro hfalse hen v hv
    unfold target_alarm at hfalse
    rw [if_pos hen, hv] at hfalse
    simp only [Bool.or_eq_false_iff, decide_eq_false_iff_not, not_lt] at hfalse
    exact ⟨hfalse.1, hfalse.2⟩
  · intro hb
    unfold target_alarm
    by_cases hen : t.enabled ≠ 0
    · rw [if_pos hen]
      cases hv : t.lastValue with
      | none => rfl
      | some v =>
        obtain ⟨h1, h2⟩ := hb hen v hv
        simp only [Bool.or_eq_false_iff, decide_eq_false_iff_not, not_lt]
        exact ⟨h1, h2⟩
    · rw [if_neg hen]

lemma scan_targets_true_iff (ts : List Target) :
    scan_targets ts = true ↔ ∀ t ∈ ts, target_in_bounds t := by
  induction ts with
  | nil => simp [scan_targets]
  | cons hd tl ih =>
    unfold scan_targets
    by_cases halarm : target_alarm hd = true
    · rw [if_pos halarm]
      constructor
      · intro hc; exact Bool.noConfusion hc
      · intro hall
        have hfalse := (target_alarm_false_iff hd).mpr (hall hd (List.mem_cons_self hd tl))
        rw [halarm] at hfalse
        exact Bool.noConfusion hfalse
    · have hf : target_alarm hd = false := by
        revert halarm; cases target_alarm hd <;> simp
      rw [if_neg halarm, ih]
      constructor
      · intro hall u hu
        rcases List.mem_cons.mp hu with h1 | h1
        · rw [h1]; exact (target_alarm_false_iff hd).mp hf
        · exact hall u h1
      · intro hall u hu
        exact hall u (List.mem_cons_of_mem hd hu)

lemma update_summary_summary (s : State) (o : Option Int) :
    (update_summary s o).summary = computed_status s o := by
  unfold update_summary update_summary_w computed_status
  by_cases h : o.getD s.master = 0
  · simp only [h, if_true]
    by_cases hs : s.summary ≠ 1
    · simp [hs]
    · push_neg at hs
      simp [hs]
  · simp only [h, if_false]
    by_cases hs : s.summary ≠ (if scan_targets s.targets then 1 else 0 : Int)
    · simp [hs]
    · push_neg at hs
      simp [← hs]

lemma update_summary_master (s : State) (o : Option Int) :
    (update_summary s o).master = s.master := by
  unfold update_summary update_summary_w
  by_cases h : o.getD s.master = 0
  · by_cases hs : s.summary ≠ 1 <;> simp [h, hs]
  · by_cases hs : s.summary ≠ (if scan_targets s.targets then 1 else 0 : Int) <;>
      simp [h, hs]

lemma update_summary_targets (s : State) (o : Option Int) :
    (update_summary s o).targets = s.targets := by
  unfold update_summary update_summary_w
  by_cases h : o.getD s.master = 0
  · by_cases hs : s.summary ≠ 1 <;> simp [h, hs]
  · by_cases hs : s.summary ≠ (if scan_targets s.targets then 1 else 0 : Int) <;>
      simp [h, hs]

/-- Claim C1: with `MasterEnable == 1`, the recomputed `AggregatedStatus` is 1
iff every target whose enable flag is set and whose `last_value` is present
lies within its inclusive bounds; otherwise the recomputed status is 0. -/
theorem master_on_status_iff_all_in_bounds (s : State) (h : s.master = 1) :
    ((update_summary s none).summary = 1 ↔ ∀ t ∈ s.targets, target_in_bounds t)
    ∧ (¬ (∀ t ∈ s.targets, target_in_bounds t) →
        (update_summary s none).summary = 0) := by
  have hsum := update_summary_summary s none
  rw [hsum]
  unfold computed_status
  have hm : (none : Option Int).getD s.master = s.master := rfl
  rw [hm, h, if_neg (by norm_num : ¬ (1 : Int) = 0)]
  by_cases hscan : scan_targets s.targets = true
  · rw [if_pos hscan]
    refine ⟨⟨fun _ => (scan_targets_true_iff s.targets).mp hscan, fun _ => rfl⟩, ?_⟩
    intro hnot
    exact absurd ((scan_targets_true_iff s.targets).mp hscan) hnot
  · rw [if_neg hscan]
    refine ⟨⟨fun h10 => absurd h10 (by norm_num), ?_⟩, fun _ => rfl⟩
    intro hall
    exact absurd ((scan_targets_true_iff s.targets).mpr hall) hscan

/-- Witness for `C1` on a concrete state: one enabled in-bounds target, one
disabled target. -/
theorem master_on_status_iff_all_in_bounds_witness :
    ((update_summary
        { master := 1, summary := 0,
          targets := [{ id := "A", enabled := 1, low := 0, high := 100, lastValue := some 5 },
                      { id := "B", enabled := 0, low := 0, high := 100, lastValue := some 200 }] }
        none).summary = 1 ↔
      ∀ t ∈ [{ id := "A", enabled := 1, low := 0, high := 100, lastValue := some 5 },
             { id := "B", enabled := 0, low := 0, high := 100, lastValue := some 200 }],
        target_in_bounds t)
    ∧ (¬ (∀ t ∈ [({ id := "A", enabled := 1, low := 0, high := 100, lastValue := some 5 } : Target),
                 { id := "B", enabled := 0, low := 0, high := 100, lastValue := some 200 }],
          target_in_bounds t) →
        (update_summary
          { master := 1, summary := 0,
            targets := [{ id := "A", enabled := 1, low := 0, high := 100, lastValue := some 5 },
                        { id := "B", enabled := 0, low := 0, high := 100, lastValue := some 200 }] }
          none).summary = 0) :=
  master_on_status_iff_all_in_bounds _ rfl

lemma update_summary_w_char (s : State) (o : Option Int) :
    update_summary_w s o =
      if computed_status s o = s.summary then (s, false)
      else ({ s with summary := computed_status s o }, true) := by
  unfold update_summary_w computed_status
  by_cases h : o.getD s.master = 0
  · by_cases hs : s.summary = 1
    · simp [h, hs]
    · simp [h, hs, Ne.symm hs]
  · by_cases hs : s.summary = (if scan_targets s.targets then (1 : Int) else 0)
    · simp [h, hs]
    · simp [h, hs, Ne.symm hs]

lemma scan_targets_eq_countP (ts : List Target) :
    scan_targets ts = true ↔ ts.countP (fun t => target_alarm t) = 0 := by
  rw [scan_targets_true_iff, List.countP_eq_zero]
  constructor
  · intro hall t ht
    have := (target_alarm_false_iff t).mpr (hall t ht)
    simp [this]
  · intro hall t ht
    refine (target_alarm_false_iff t).mp ?_
    have := hall t ht
    revert this
    cases target_alarm t <;> simp

lemma scan_targets_congr (pre post : List Target) (a b : Target)
    (h : target_alarm a = target_alarm b) :
    scan_targets (pre ++ a :: post) = scan_targets (pre ++ b :: post) := by
  induction pre with
  | nil =>
    simp only [List.nil_append, scan_targets]
    rw [h]
  | cons hd tl ih =>
    simp only [List.cons_append, scan_targets, List.append_eq]
    rw [ih]

/-- Claim C2: if the effective `MasterEnable` is 0 the recompute forces
`AggregatedStatus` to 1 regardless of all targets, and the
`MONITOR:MASTER_ENABLE` putter recomputes with the freshly written value as
override (equivalently, as if the registry already held the new value), so
writing 0 always publishes 1 even though the cached value is stale. -/
theorem master_off_forces_healthy_and_override_is_fresh :
    (∀ s : State, s.master = 0 → (update_summary s none).summary = 1)
    ∧ (∀ (s : State) (v : Int),
        (master_enable_putter s v).summary
          = (update_summary { s with master := v } none).summary
        ∧ (master_enable_putter s v).master = v)
    ∧ (∀ s : State, (master_enable_putter s 0).summary = 1) := by
  refine ⟨?_, ?_, ?_⟩
  · intro s h
    rw [update_summary_summary]
    unfold computed_status
    simp [h]
  · intro s v
    constructor
    · show (update_summary s (some v)).summary = _
      rw [update_summary_summary, update_summary_summary]
      unfold computed_status
      rfl
    · rfl
  · intro s
    show (update_summary s (some 0)).summary = 1
    rw [update_summary_summary]
    unfold computed_status
    simp

/-- Witness for `C2`: a master-disabled state recomputes to 1, and with
master cached at 1 but 0 freshly written the putter publishes 1 even
though an enabled target is out of bounds. -/
theorem master_off_forces_healthy_and_override_is_fresh_witness :
    (update_summary
      { master := 0, summary := 0,
        targets := [{ id := "A", enabled := 1, low := 0, high := 10, lastValue := some 50 }] }
      none).summary = 1
    ∧ (master_enable_putter
        { master := 1, summary := 0,
          targets := [{ id := "A", enabled := 1, low := 0, high := 10, lastValue := some 50 }] }
        0).summary = 1 :=
  ⟨master_off_forces_healthy_and_override_is_fresh.1
      { master := 0, summary := 0,
        targets := [{ id := "A", enabled := 1, low := 0, high := 10, lastValue := some 50 }] }
      rfl,
    master_off_forces_healthy_and_override_is_fresh.2.2
      { master := 1, summary := 0,
        targets := [{ id := "A", enabled := 1, low := 0, high := 10, lastValue := some 50 }] }⟩

/-- Claim C3: on every recompute (any override), `summary_status.write` is
performed exactly when the computed status differs from the currently
published one; when they agree the state is left entirely unchanged; and
the resulting published status always equals the computed status. -/
theorem status_written_only_on_change (s : State) (o : Option Int) :
    ((update_summary_w s o).2 = true ↔ computed_status s o ≠ s.summary)
    ∧ (computed_status s o = s.summary → update_summary s o = s)
    ∧ (update_summary s o).summary = computed_status s o := by
  refine ⟨?_, ?_, update_summary_summary s o⟩
  · rw [update_summary_w_char]
    by_cases h : computed_status s o = s.summary
    · simp [h]
    · simp [h]
  · intro h
    unfold update_summary
    rw [update_summary_w_char, if_pos h]

/-- Witness for `C3`: recompute on a state already publishing the computed
value performs no write and leaves the state unchanged. -/
theorem status_written_only_on_change_witness :
    update_summary { master := 0, summary := 1, targets := [] } none
      = { master := 0, summary := 1, targets := [] } :=
  (status_written_only_on_change { master := 0, summary := 1, targets := [] } none).2.1 rfl

/-- Claim C8: the short-circuiting scan of `_update_summary` (first violating
target in registration order wins) publishes the same 0/1 status as a full
scan counting every violating target; consequently only the existence of a
violation, never which or how many targets violate, is observable in the
published status. -/
theorem short_circuit_scan_equals_full_scan :
    (∀ ts : List Target, (if scan_targets ts then (1 : Int) else 0) = full_scan_status ts)
    ∧ (∀ s : State, s.master ≠ 0 →
        (update_summary s none).summary = full_scan_status s.targets)
    ∧ (∀ s1 s2 : State, s1.master ≠ 0 → s2.master ≠ 0 →
        ((∃ t ∈ s1.targets, target_alarm t = true) ↔ (∃ t ∈ s2.targets, target_alarm t = true)) →
        (update_summary s1 none).summary = (update_summary s2 none).summary) := by
  have key : ∀ ts : List Target,
      (if scan_targets ts then (1 : Int) else 0) = full_scan_status ts := by
    intro ts
    unfold full_scan_status
    by_cases hscan : scan_targets ts = true
    · rw [if_pos hscan, if_pos ((scan_targets_eq_countP ts).mp hscan)]
    · rw [if_neg hscan, if_neg (fun hc => hscan ((scan_targets_eq_countP ts).mpr hc))]
  have key2 : ∀ s : State, s.master ≠ 0 →
      (update_summary s none).summary = full_scan_status s.targets := by
    intro s h
    rw [update_summary_summary]
    unfold computed_status
    rw [Option.getD_none, if_neg h]
    exact key s.targets
  refine ⟨key, key2, ?_⟩
  intro s1 s2 h1 h2 hex
  rw [key2 s1 h1, key2 s2 h2]
  unfold full_scan_status
  have hcount : s1.targets.countP (fun t => target_alarm t) = 0 ↔
      s2.targets.countP (fun t => target_alarm t) = 0 := by
    rw [List.countP_eq_zero, List.countP_eq_zero]
    constructor
    · intro hnone t ht hc
      obtain ⟨u, hu, hau⟩ := hex.mpr ⟨t, ht, hc⟩
      exact hnone u hu hau
    · intro hnone t ht hc
      obtain ⟨u, hu, hau⟩ := hex.mp ⟨t, ht, hc⟩
      exact hnone u hu hau
  by_cases hz : s1.targets.countP (fun t => target_alarm t) = 0
  · rw [if_pos hz, if_pos (hcount.mp hz)]
  · rw [if_neg hz, if_neg (fun hc => hz (hcount.mpr hc))]

/-- Witness for `C8`: with master on, a state with one out-of-bounds
enabled target publishes the same status as the full scan reports. -/
theorem short_circuit_scan_equals_full_scan_witness :
    (update_summary
      { master := 1, summary := 1,
        targets := [{ id := "A", enabled := 1, low := 0, high := 10, lastValue := some 50 }] }
      none).summary
      = full_scan_status
          [{ id := "A", enabled := 1, low := 0, high := 10, lastValue := some 50 }] :=
  short_circuit_scan_equals_full_scan.2.1
    { master := 1, summary := 1,
      targets := [{ id := "A", enabled := 1, low := 0, high := 10, lastValue := some 50 }] }
    (by norm_num)

/-- Claim C9: a target that is disabled (or whose value is unknown in both
runs) never influences the recomputed status: two registry states that
differ only in such a target's `last_value` yield identical recomputed
`AggregatedStatus`, whatever the two values are. -/
theorem excluded_target_value_never_influences
    (master summary : Int) (pre post : List Target) (t : Target)
    (v1 v2 : Option ℚ)
    (h : t.enabled = 0 ∨ (v1 = none ∧ v2 = none)) :
    (update_summary
        { master := master, summary := summary,
          targets := pre ++ { t with lastValue := v1 } :: post } none).summary
      = (update_summary
          { master := master, summary := summary,
            targets := pre ++ { t with lastValue := v2 } :: post } none).summary := by
  rcases h with h0 | ⟨hn1, hn2⟩
  · rw [update_summary_summary, update_summary_summary]
    unfold computed_status
    have halarm : target_alarm { t with lastValue := v1 }
        = target_alarm { t with lastValue := v2 } := by
      unfold target_alarm
      rw [if_neg (by simp [h0]), if_neg (by simp [h0])]
    rw [scan_targets_congr pre post _ _ halarm]
  · rw [hn1, hn2]

/-- Witness for `C9`: toggling a disabled target between an out-of-bounds
and an in-bounds value leaves the recomputed status identical. -/
theorem excluded_target_value_never_influences_witness :
    (update_summary
        { master := 1, summary := 1,
          targets := [] ++ { id := "B", enabled := 0, low := 0, high := 10,
                             lastValue := some 200 } :: [] } none).summary
      = (update_summary
          { master := 1, summary := 1,
            targets := [] ++ { id := "B", enabled := 0, low := 0, high := 10,
                               lastValue := some 5 } :: [] } none).summary :=
  excluded_target_value_never_influences 1 1 [] []
    { id := "B", enabled := 0, low := 0, high := 10, lastValue := none }
    (some 200) (some 5) (Or.inl rfl)

/-! ## Full model: raw payloads, extraction, startup and scheduling

The claims about the subscription path need the stored value before any
numeric assumption: an inbound `response.data` may be a numeric scalar, a
string, or a sequence of numbers, and the extraction policy can store a
whole (possibly empty) sequence.  Python's comparison of such a value with
a float bound raises `TypeError`; raised exceptions are modelled by
`Except.error ()`. -/

/-- An inbound payload (`response.data` of an initial read or subscription
event): a numeric scalar, a string, or a sequence of numbers. -/
inductive Payload where
  | num (q : ℚ)
  | str (s : String)
  | seq (elems : List ℚ)
deriving DecidableEq, Repr

/-- Python `val[0]` on a payload: yields the first element of a nonempty
sequence and raises (`IndexError` on an empty sequence, `TypeError` on a
non-subscriptable value) otherwise. -/
def payload_index0 : Payload → Except Unit Payload
  | .seq (x :: _) => .ok (.num x)
  | .seq [] => .error ()
  | _ => .error ()

/-- The guard `hasattr(val, '__iter__') and not isinstance(val, str)` of
the extraction policy. -/
def is_iterable_not_str : Payload → Bool
  | .seq _ => true
  | _ => false

/-- The scalar-extraction policy of `_monitor_loop` (lines 137-144) and
`master_enable_startup` (lines 96-103): on a non-string iterable take
element 0, and on any exception fall back to the whole payload; a
non-iterable or string payload is used directly. -/
def extract (val : Payload) : Payload :=
  if is_iterable_not_str val then
    match payload_index0 val with
    | .ok v => v
    | .error _ => val
  else val

/-- A payload is a numeric scalar. -/
def is_scalar : Payload → Bool
  | .num _ => true
  | _ => false

/-- Connection state of a target.  Modelled from the spec: §3 gives each
target `connection_state ∈ {Unknown, Connected, Failed}`; the code keeps no
such field (a failure is observable only through the log and the absent
stored value), so this follows the spec's words. -/
inductive ConnState where
  | Unknown
  | Connected
  | Failed
deriving DecidableEq, Repr

/-- A registry entry in the full model: as `Target`, but the stored value
is a raw payload and the spec-modelled connection state is carried
along. -/
structure TargetF where
  id : String
  enabled : Int
  low : ℚ
  high : ℚ
  lastValue : Option Payload
  connState : ConnState
deriving DecidableEq, Repr

/-- A registry snapshot in the full model. -/
structure StateF where
  master : Int
  summary : Int
  targets : List TargetF
deriving DecidableEq, Repr

/-- Python `value < bound` with a float bound: defined for numeric values,
raises `TypeError` on strings and sequences. -/
def py_lt : Payload → ℚ → Except Unit Bool
  | .num q, b => .ok (decide (q < b))
  | _, _ => .error ()

/-- Python `value > bound` with a float bound. -/
def py_gt : Payload → ℚ → Except Unit Bool
  | .num q, b => .ok (decide (q > b))
  | _, _ => .error ()

/-- The per-target test of `_update_summary` over raw stored payloads
(lines 184-188); `or` is evaluated left to right as in Python, and a
raised comparison error propagates. -/
def target_alarmF (t : TargetF) : Except Unit Bool :=
  if t.enabled ≠ 0 then
    match t.lastValue with
    | some v =>
        match py_lt v t.low with
        | .error e => .error e
        | .ok lt_low => if lt_low then .ok true else py_gt v t.high
    | none => .ok false
  else .ok false

/-- The scan loop of `_update_summary` over raw payloads: `break` at the
first alarming target; a raised error propagates out of the loop. -/
def scanF : List TargetF → Except Unit Bool
  | [] => .ok true
  | t :: ts =>
      match target_alarmF t with
      | .error e => .error e
      | .ok alarm => if alarm then .ok false else scanF ts

/-- Embedding of `_update_summary` over raw stored payloads: as
`update_summary`, except that a raised comparison error aborts the
recompute (and would kill the invoking monitor loop or scheduled task). -/
def update_summaryF (s : StateF) (override : Option Int) : Except Unit StateF :=
  let master_enable := override.getD s.master
  if master_enable = 0 then
    if s.summary ≠ 1 then .ok { s with summary := 1 } else .ok s
  else
    match scanF s.targets with
    | .error e => .error e
    | .ok all_ok =>
        let new_status : Int := if all_ok then 1 else 0
        if s.summary ≠ new_status then .ok { s with summary := new_status }
        else .ok s

/-- The dictionary write `self.target_values[pv.name] = v` (line 146 /
line 104): ids are unique, so the write updates the entry of the named
target. -/
def set_target_value (ts : List TargetF) (name : String) (v : Payload) : List TargetF :=
  ts.map fun t => if t.id = name then { t with lastValue := some v } else t

/-- The first half of a `_monitor_loop` iteration (lines 137-146): extract
a scalar from the inbound payload and store it for the named target. -/
def store_event (s : StateF) (name : String) (payload : Payload) : StateF :=
  { s with targets := set_target_value s.targets name (extract payload) }

/-- A full `_monitor_loop` iteration (lines 137-148): store the extracted
value, then invoke `_update_summary` on the updated registry. -/
def process_event (s : StateF) (name : String) (payload : Payload) : Except Unit StateF :=
  update_summaryF (store_event s name payload) none

/-- One iteration of the startup loop of `master_enable_startup`
(lines 88-112) for one target, given the outcome of its initial
`pv.read()`: on success the extracted scalar is stored; on failure the
error is logged and the stored value is left untouched (absent at
startup).  The returned flag records that the monitor task is created in
either case.  The `connection_state` transition is modelled from the spec
(§3, §7); the code does not store it. -/
def startup_target (t : TargetF) (readResult : Except Unit Payload) : TargetF × Bool :=
  match readResult with
  | .ok payload =>
      ({ t with lastValue := some (extract payload), connState := .Connected }, true)
  | .error _ => ({ t with connState := .Failed }, true)

/-- The whole startup loop: each target is processed with its own read
outcome, independently of all others. -/
def startup (ts : List TargetF) (reads : List (Except Unit Payload)) :
    List (TargetF × Bool) :=
  List.zipWith startup_target ts reads

/-- Every stored value in the registry is a numeric scalar (the domain of
the spec's §3 data model, where `last_value` is an optional numeric). -/
def numeric_values (ts : List TargetF) : Bool :=
  ts.all fun t => t.lastValue.all is_scalar

/-- The delay of `check_after` (`await asyncio.sleep(0.01)`, line 205), in
seconds. -/
def check_after_delay : ℚ := 1 / 100

/-- The pending recompute tasks created by `generic_putter`: each task,
once its fixed 0.01 s sleep elapses, invokes `_update_summary` exactly
once; no machinery cancels or merges pending tasks. -/
structure Sched where
  pending_updates : ℕ
deriving DecidableEq, Repr

/-- The scheduling effect of one call of `generic_putter` (lines 201-210),
the putter shared by every `<id>:ENABLE`, `<id>:LOW` and `<id>:HIGH`
point: `asyncio.ensure_future(check_after())` adds one pending deferred
recompute task. -/
def generic_putter (sched : Sched) : Sched :=
  { pending_updates := sched.pending_updates + 1 }

/-- The effect of `n` control-surface writes arriving inside one debounce
window (each before any pending task has fired). -/
def apply_writes : ℕ → Sched → Sched
  | 0, sched => sched
  | n + 1, sched => generic_putter (apply_writes n sched)

-- Lemmas about the full model.

lemma target_alarmF_none (t : TargetF) (h : t.lastValue = none) :
    target_alarmF t = Except.ok false := by
  unfold target_alarmF
  rw [h]
  by_cases hen : t.enabled ≠ 0
  · rw [if_pos hen]
  · rw [if_neg hen]

lemma scanF_skip_none (pre post : List TargetF) (t : TargetF)
    (h : t.lastValue = none) :
    scanF (pre ++ t :: post) = scanF (pre ++ post) := by
  induction pre with
  | nil =>
    simp only [List.nil_append, scanF]
    rw [target_alarmF_none t h]
    rfl
  | cons hd tl ih =>
    simp only [List.cons_append, scanF, List.append_eq]
    rw [ih]

lemma target_alarmF_numeric (t : TargetF)
    (h : t.lastValue.all is_scalar = true) :
    ∃ b : Bool, target_alarmF t = Except.ok b := by
  unfold target_alarmF
  by_cases hen : t.enabled ≠ 0
  · rw [if_pos hen]
    cases hv : t.lastValue with
    | none => exact ⟨false, rfl⟩
    | some v =>
      rw [hv] at h
      cases v with
      | num q =>
        by_cases hlt : decide (q < t.low) = true
        · exact ⟨true, by simp [py_lt, hlt]⟩
        · exact ⟨decide (q > t.high), by simp [py_lt, py_gt, hlt]⟩
      | str s => simp [Option.all_some, is_scalar] at h
      | seq l => simp [Option.all_some, is_scalar] at h
  · rw [if_neg hen]
    exact ⟨false, rfl⟩

lemma scanF_numeric (ts : List TargetF) (h : numeric_values ts = true) :
    ∃ b : Bool, scanF ts = Except.ok b := by
  induction ts with
  | nil => exact ⟨true, rfl⟩
  | cons t ts ih =>
    unfold numeric_values at h
    rw [List.all_cons, Bool.and_eq_true] at h
    obtain ⟨b0, hb0⟩ := target_alarmF_numeric t h.1
    obtain ⟨b1, hb1⟩ := ih h.2
    unfold scanF
    rw [hb0]
    cases b0 with
    | true => exact ⟨false, rfl⟩
    | false => exact ⟨b1, by simpa using hb1⟩

lemma startup_get? (ts : List TargetF) (reads : List (Except Unit Payload)) (k : ℕ) :
    (startup ts reads).get? k =
      match ts.get? k, reads.get? k with
      | some t, some r => some (startup_target t r)
      | _, _ => none := by
  induction ts generalizing reads k with
  | nil => cases reads <;> cases k <;> rfl
  | cons t ts ih =>
    cases reads with
    | nil =>
      cases k with
      | zero => rfl
      | succ n => cases h27 : (t :: ts).get? (n + 1) <;> rfl
    | cons r rs =>
      cases k with
      | zero => rfl
      | succ k => exact ih rs k

/-- Claim C4 counterexample: with master on, an enabled target whose stored
value is the whole empty sequence (storable by the extraction fallback of
the subscription path) makes the bounds comparison of the recompute raise,
so the recompute does not terminate normally with a 0/1 status. -/
theorem recompute_not_total_counterexample :
    update_summaryF
      { master := 1, summary := 1,
        targets := [{ id := "A", enabled := 1, low := 0, high := 100,
                      lastValue := some (Payload.seq []), connState := .Connected }] }
      none = Except.error () := rfl

/-- Claim C4 amended: the recompute is total with a 0/1 result for every
registry snapshot whose present stored values are numeric scalars; a
non-scalar stored value (whole string or empty sequence, reachable via the
extraction fallback) on an enabled target under master enable instead
makes the bounds comparison raise. -/
theorem recompute_total_on_numeric_values (s : StateF) (o : Option Int)
    (h : numeric_values s.targets = true) :
    ∃ s' : StateF, update_summaryF s o = Except.ok s'
      ∧ (s'.summary = 0 ∨ s'.summary = 1) := by
  unfold update_summaryF
  by_cases hm : o.getD s.master = 0
  · rw [if_pos hm]
    by_cases hs : s.summary ≠ 1
    · rw [if_pos hs]
      exact ⟨_, rfl, Or.inr rfl⟩
    · rw [if_neg hs]
      push_neg at hs
      exact ⟨s, rfl, Or.inr hs⟩
  · rw [if_neg hm]
    obtain ⟨b, hb⟩ := scanF_numeric s.targets h
    rw [hb]
    by_cases hs : s.summary = (if b then (1 : Int) else 0)
    · exact ⟨s, by simp [hs], by cases b <;> simp [hs]⟩
    · exact ⟨{ s with summary := if b then (1 : Int) else 0 },
        by simp [hs], by cases b <;> simp⟩

/-- Witness for the amended C4: a numeric snapshot recomputes normally to a
0/1 status. -/
theorem recompute_total_on_numeric_values_witness :
    ∃ s' : StateF,
      update_summaryF
        { master := 1, summary := 0,
          targets := [{ id := "A", enabled := 1, low := 0, high := 100,
                        lastValue := some (Payload.num 5), connState := .Connected }] }
        none = Except.ok s'
      ∧ (s'.summary = 0 ∨ s'.summary = 1) :=
  recompute_total_on_numeric_values
    { master := 1, summary := 0,
      targets := [{ id := "A", enabled := 1, low := 0, high := 100,
                    lastValue := some (Payload.num 5), connState := .Connected }] }
    none (by decide)

/-- Claim C5: a target whose initial read fails keeps its stored value
untouched (absent at startup), its spec-modelled connection state becomes
Failed, and its monitor task is still created; every other target's
startup outcome depends only on its own read result (changing one target's
read outcome changes no other entry); and a target with an absent stored
value is skipped by the aggregation scan. -/
theorem failed_initial_read_is_isolated :
    (∀ t : TargetF,
        (startup_target t (Except.error ())).1.lastValue = t.lastValue
        ∧ (startup_target t (Except.error ())).1.connState = ConnState.Failed
        ∧ (startup_target t (Except.error ())).2 = true)
    ∧ (∀ (ts : List TargetF) (reads reads' : List (Except Unit Payload)) (j : ℕ),
        (∀ k : ℕ, k ≠ j → reads.get? k = reads'.get? k) →
        ∀ k : ℕ, k ≠ j → (startup ts reads).get? k = (startup ts reads').get? k)
    ∧ (∀ (pre post : List TargetF) (t : TargetF), t.lastValue = none →
        scanF (pre ++ t :: post) = scanF (pre ++ post)) := by
  refine ⟨fun t => ⟨rfl, rfl, rfl⟩, ?_, scanF_skip_none⟩
  intro ts reads reads' j hagree k hk
  rw [startup_get?, startup_get?, hagree k hk]

/-- Witness for C5: a value-less target (such as one whose initial read
failed) is skipped by the scan. -/
theorem failed_initial_read_is_isolated_witness :
    scanF ([] ++ { id := "A", enabled := 1, low := 0, high := 100,
                   lastValue := none, connState := ConnState.Failed } :: [])
      = scanF ([] ++ []) :=
  failed_initial_read_is_isolated.2.2 [] []
    { id := "A", enabled := 1, low := 0, high := 100,
      lastValue := none, connState := ConnState.Failed } rfl

/-- Claim C6 counterexample: two near-simultaneous writes (for example
`LOW` and `HIGH` updated together) schedule two deferred `_update_summary`
invocations, not the single coalesced invocation the claim requires. -/
theorem writes_not_coalesced_counterexample :
    (generic_putter (generic_putter { pending_updates := 0 })).pending_updates = 2
    ∧ (2 : ℕ) ≠ 1 :=
  ⟨rfl, by decide⟩

/-- Claim C6 amended: every write to a target's `ENABLE`/`LOW`/`HIGH`
point defers its recompute by the fixed 0.01 s delay, but nothing
coalesces the writes: `n` writes inside the window schedule exactly `n`
deferred `_update_summary` invocations, one per written field. -/
theorem each_write_schedules_own_recompute :
    check_after_delay = 1 / 100
    ∧ ∀ (n : ℕ) (sched : Sched),
        (apply_writes n sched).pending_updates = sched.pending_updates + n := by
  refine ⟨rfl, ?_⟩
  intro n sched
  induction n with
  | zero => rfl
  | succ k ih =>
    show (generic_putter (apply_writes k sched)).pending_updates = _
    unfold generic_putter
    rw [ih]
    rfl

/-- The extraction policy exactly as claim C7 states it: the stored value
is the payload's first element when the payload is a sequence, and the
payload itself otherwise. -/
def claimed_extract_policy (p : Payload) : Prop :=
  match p with
  | .seq l => ∃ x : ℚ, l.head? = some x ∧ extract p = Payload.num x
  | _ => extract p = p

/-- Claim C7 counterexample: the empty sequence is a sequence, yet the
stored value is not its (nonexistent) first element — the caught-error
fallback stores the whole payload instead. -/
theorem extract_policy_counterexample :
    ¬ claimed_extract_policy (Payload.seq []) := by
  intro h
  obtain ⟨x, hx, _⟩ := h
  exact Option.noConfusion hx

/-- Claim C7 amended: the stored value is the payload's first element when
the payload is a nonempty non-string sequence, and the payload itself
otherwise (a non-sequence directly, an empty sequence via the caught-error
fallback); the extracted value is the named target's stored value in the
registry that the aggregator is then invoked on. -/
theorem extract_policy_and_aggregation_freshness :
    (∀ (x : ℚ) (xs : List ℚ), extract (Payload.seq (x :: xs)) = Payload.num x)
    ∧ (∀ q : ℚ, extract (Payload.num q) = Payload.num q)
    ∧ (∀ text : String, extract (Payload.str text) = Payload.str text)
    ∧ extract (Payload.seq []) = Payload.seq []
    ∧ (∀ (s : StateF) (name : String) (p : Payload),
        process_event s name p = update_summaryF (store_event s name p) none)
    ∧ (∀ (s : StateF) (name : String) (p : Payload) (t : TargetF),
        t ∈ (store_event s name p).targets → t.id = name →
        t.lastValue = some (extract p)) := by
  refine ⟨fun x xs => rfl, fun q => rfl, fun text => rfl, rfl,
    fun s name p => rfl, ?_⟩
  intro s name p t ht hid
  simp only [store_event, set_target_value, List.mem_map] at ht
  obtain ⟨u, hu, hut⟩ := ht
  by_cases h : u.id = name
  · rw [if_pos h] at hut
    rw [← hut]
  · rw [if_neg h] at hut
    rw [← hut] at hid
    exact absurd hid h

/-- Witness for the amended C7: a subscription event carrying the sequence
`[7]` stores the scalar 7 for the named target. -/
theorem extract_policy_and_aggregation_freshness_witness :
    ({ id := "A", enabled := 1, low := 0, high := 100,
       lastValue := some (Payload.num 7), connState := ConnState.Unknown } : TargetF).lastValue
      = some (extract (Payload.seq [7])) :=
  extract_policy_and_aggregation_freshness.2.2.2.2.2
    { master := 1, summary := 1,
      targets := [{ id := "A", enabled := 1, low := 0, high := 100,
                    lastValue := none, connState := ConnState.Unknown }] }
    "A" (Payload.seq [7])
    { id := "A", enabled := 1, low := 0, high := 100,
      lastValue := some (Payload.num 7), connState := ConnState.Unknown }
    (by decide) rfl

/-- Claim C10: an empty non-string sequence payload takes the fallback
path: indexing it raises, the caught error makes the whole empty sequence
the stored value — present (replacing any previous value, not left in
place, not absent) and not a scalar. -/
theorem empty_sequence_fallback_stores_whole_payload :
    payload_index0 (Payload.seq []) = Except.error ()
    ∧ extract (Payload.seq []) = Payload.seq []
    ∧ is_scalar (extract (Payload.seq [])) = false
    ∧ (∀ (s : StateF) (name : String) (t : TargetF),
        t ∈ (store_event s name (Payload.seq [])).targets → t.id = name →
        t.lastValue = some (Payload.seq [])) := by
  refine ⟨rfl, rfl, rfl, ?_⟩
  intro s name t ht hid
  simp only [store_event, set_target_value, List.mem_map] at ht
  obtain ⟨u, hu, hut⟩ := ht
  by_cases h : u.id = name
  · rw [if_pos h] at hut
    rw [← hut]
    rfl
  · rw [if_neg h] at hut
    rw [← hut] at hid
    exact absurd hid h

/-- Witness for C10: an empty-sequence event overwrites a previously
stored scalar with the whole empty sequence. -/
theorem empty_sequence_fallback_stores_whole_payload_witness :
    ({ id := "B", enabled := 1, low := 0, high := 100,
       lastValue := some (Payload.seq []), connState := ConnState.Connected } : TargetF).lastValue
      = some (Payload.seq []) :=
  empty_sequence_fallback_stores_whole_payload.2.2.2
    { master := 1, summary := 1,
      targets := [{ id := "B", enabled := 1, low := 0, high := 100,
                    lastValue := some (Payload.num 5), connState := ConnState.Connected }] }
    "B"
    { id := "B", enabled := 1, low := 0, high := 100,
      lastValue := some (Payload.seq []), connState := ConnState.Connected }
    (by decide) rfl
